import Mathlib

/-!
Verification of the file-navigator MCP server (`src/index.ts`) against its
natural-language specification.  The per-file navigator state, the streaming
line primitives, the search scan and the screen formatter are embedded as
executable Lean definitions, translated from the TypeScript source; the
claims of the specification are then settled as theorems about those
definitions.

Modelling conventions, stated once:
* A file's content is the sequence of lines produced by `readFileLines`
  (split on the newline character; a trailing final line with no newline is
  still yielded, an empty file yields no lines), so `FileLines := List String`.
* JavaScript numbers holding line counts, cursor positions and page sizes are
  modelled as `Nat` (they are non-negative in every reachable state; the one
  signed quantity, `currentMatchIndex`, is an `Int` because the source
  initialises it to `-1`).  The `line` argument of `go_to_line` is an `Int`
  since the caller may pass a negative number; it is clamped immediately.
* A compiled JavaScript regex with the `g` flag is stateful: `test(line)`
  searches from the regex object's current `lastIndex`, advances `lastIndex`
  past the match on success and resets it to `0` on failure.  That behaviour
  is the type `TestFn`; the escaped-literal search path of `find` is modelled
  exactly (`literalTest`), while regex-mode compilation — which happens in the
  JavaScript runtime, outside this repository — is an oracle
  (`RegexCompile`): theorems quantified over every oracle in particular hold
  for the real engine.
-/

namespace BmNavigate

/-- Cap on retained search results (`MAX_SEARCH_RESULTS` in the source). -/
def MAX_SEARCH_RESULTS : Nat := 1000

/-- Default page height (`DEFAULT_SCREEN_HEIGHT` in the source). -/
def DEFAULT_SCREEN_HEIGHT : Nat := 30

/-- One collected search match: 1-based line number and the line's verbatim
text at scan time (the source pushes `{ line: lineNum, content: line }`). -/
structure MatchRecord where
  line : Nat
  content : String
  deriving DecidableEq, Repr

/-- Per-file navigator session record (`FileNavigatorState` in the source). -/
structure FileNavigatorState where
  currentFile : Option String
  currentLine : Nat
  screenHeight : Nat
  searchPattern : Option String
  searchMatches : List MatchRecord
  currentMatchIndex : Int
  deriving DecidableEq, Repr

/-- A file's content as the line sequence yielded by `readFileLines`. -/
abbrev FileLines := List String

/-- Total line count (`getTotalLines`: one full pass counting yielded lines). -/
def getTotalLines (file : FileLines) : Nat := file.length

/-- Loop of `getLines`: `cur` is the 1-based number of the next unread line.
The source pushes a line when `startLine <= cur < startLine + count` and
breaks out of the loop once `cur >= startLine + count`. -/
def getLinesAux (start cnt : Nat) : FileLines → Nat → List (Nat × String)
  | [], _ => []
  | l :: rest, cur =>
    if start ≤ cur ∧ cur < start + cnt then
      (cur, l) :: getLinesAux start cnt rest (cur + 1)
    else if start + cnt ≤ cur then
      []
    else
      getLinesAux start cnt rest (cur + 1)

/-- Window fetch (`getLines(filePath, startLine, count)`). -/
def getLines (file : FileLines) (startLine count : Nat) : List (Nat × String) :=
  getLinesAux startLine count file 1

/-- JavaScript `String.prototype.padStart(w, c)` (no-op when `s` is already
at least `w` long; `Nat` subtraction saturates exactly as needed). -/
def padStart (s : String) (w : Nat) (c : Char) : String :=
  String.mk (List.replicate (w - s.length) c) ++ s

/-- Line number of the last window entry (`lines[lines.length - 1].lineNumber`);
only used on non-empty windows, defaulting to 0. -/
def lastLineNumber (lines : List (Nat × String)) : Nat :=
  (lines.getLast?.map Prod.fst).getD 0

/-- The end-of-file banner appended by `formatScreen`. -/
def eofBanner (totalLines : Nat) : String :=
  "[END OF FILE - " ++ toString totalLines ++ " lines total]"

/-- Padding width for line numbers (`maxLineNumWidth` in the source): the
larger of the digit widths of `totalLines` and of the last shown line. -/
def lineNumWidth (lines : List (Nat × String)) (totalLines : Nat) : Nat :=
  max (toString totalLines).length (toString (lastLineNumber lines)).length

/-- Rows of `formatScreen` for a non-empty window: each entry as
`paddedNumber | content`; when the last rendered line number reaches
`totalLines`, filler `~` rows up to `DEFAULT_SCREEN_HEIGHT` and the
end-of-file banner (the source's `for` loop runs `i` from `lines.length`
to `DEFAULT_SCREEN_HEIGHT - 1`, hence `DEFAULT_SCREEN_HEIGHT - lines.length`
fillers, none when the window is already that tall). -/
def formatRows (lines : List (Nat × String)) (totalLines : Nat) : List String :=
  let w := lineNumWidth lines totalLines
  let base := lines.map (fun p => padStart (toString p.1) w ' ' ++ " | " ++ p.2)
  if totalLines ≤ lastLineNumber lines then
    base ++ List.replicate (DEFAULT_SCREEN_HEIGHT - lines.length) (padStart "~" (w + 1) ' ')
      ++ [eofBanner totalLines]
  else
    base

/-- Screen rendering (`formatScreen`). -/
def formatScreen (lines : List (Nat × String)) (totalLines : Nat) : String :=
  if lines.isEmpty then "~\n(empty file)"
  else String.intercalate "\n" (formatRows lines totalLines)

/-- Behaviour of one `searchRegex.test(line)` call of a `g`-flag JavaScript
regex: from the line and the regex object's current `lastIndex`, the match
outcome and the new `lastIndex`. -/
abbrev TestFn := String → Nat → Bool × Nat

/-- Character-wise lower-casing, modelling the `i` flag's case folding. -/
def lowerStr (s : String) : List Char := s.data.map Char.toLower

/-- End position of the first occurrence of `pat` starting at a position
`≥ start` within `line` (positions range over `0 … line.length`). -/
def firstMatchEnd (pat line : List Char) (start : Nat) : Option Nat :=
  (((List.range (line.length + 1)).filter
      (fun i => decide (start ≤ i) && ((line.drop i).take pat.length == pat))).head?).map
    (fun i => i + pat.length)

/-- The literal-mode matcher: the source escapes every regex metacharacter in
the pattern and compiles the result with flags `gi`, which is exactly a
case-insensitive literal substring search honouring the shared `lastIndex`
(advanced past a match on success, reset to 0 on failure). -/
def literalTest (pattern : String) : TestFn := fun line lastIndex =>
  match firstMatchEnd (lowerStr pattern) (lowerStr line) lastIndex with
  | some e => (true, e)
  | none => (false, 0)

/-- Accumulator of the `find` scan loop: matches collected so far, the
tracked `firstMatchAfterCursor` together with the `currentMatchIndex` it was
recorded at, and the compiled regex's current `lastIndex`. -/
structure FindAcc where
  collected : List MatchRecord
  firstAfter : Option MatchRecord
  matchIndex : Int
  lastIndex : Nat
  deriving Repr

/-- Initial accumulator of the scan (empty matches, no landing, index -1,
fresh regex state). -/
def initAcc : FindAcc := ⟨[], none, -1, 0⟩

/-- The `find` scan loop: for each line, one `searchRegex.test` call (shared,
stateful regex); on a hit the match is pushed, `firstMatchAfterCursor` is
recorded if still unset and `cursor ≤ lineNum`, and the loop breaks once the
match count reaches `MAX_SEARCH_RESULTS`. -/
def findScan (test : TestFn) (cursor : Nat) : FileLines → Nat → FindAcc → FindAcc
  | [], _, acc => acc
  | l :: rest, lineNum, acc =>
    let r := test l acc.lastIndex
    if r.1 then
      let m : MatchRecord := ⟨lineNum, l⟩
      let ms := acc.collected ++ [m]
      let fa := if acc.firstAfter.isNone ∧ cursor ≤ lineNum then some m else acc.firstAfter
      let mi := if acc.firstAfter.isNone ∧ cursor ≤ lineNum then (ms.length : Int) - 1
                else acc.matchIndex
      if MAX_SEARCH_RESULTS ≤ ms.length then ⟨ms, fa, mi, r.2⟩
      else findScan test cursor rest (lineNum + 1) ⟨ms, fa, mi, r.2⟩
    else
      findScan test cursor rest (lineNum + 1) ⟨acc.collected, acc.firstAfter, acc.matchIndex, r.2⟩

/-- State mutation performed by `find` before the pattern is compiled:
`state.searchMatches = []; state.currentMatchIndex = -1;`. -/
def clearSearch (st : FileNavigatorState) : FileNavigatorState :=
  { st with searchMatches := [], currentMatchIndex := -1 }

/-- The wrap step after the scan (`if (!firstMatchAfterCursor &&
state.searchMatches.length > 0)`): the match landed on — the tracked first
match at/after the cursor, or match 0 when none was found but some match
exists. -/
def landedOf (acc : FindAcc) : Option MatchRecord :=
  match acc.firstAfter, acc.collected with
  | some m, _ => some m
  | none, [] => none
  | none, m :: _ => some m

/-- The `currentMatchIndex` resulting from the wrap step. -/
def landedIdx (acc : FindAcc) : Int :=
  match acc.firstAfter, acc.collected with
  | some _, _ => acc.matchIndex
  | none, [] => acc.matchIndex
  | none, _ :: _ => 0

/-- The `find` tool after its pattern compiled to `test`: clear the previous
search, record the pattern, scan, wrap to match 0 when no match was at or
after the cursor, and on a landing move `currentLine` there and render. -/
def findWith (test : TestFn) (pattern : String) (file : FileLines)
    (st : FileNavigatorState) : FileNavigatorState × String :=
  let st1 := { clearSearch st with searchPattern := some pattern }
  let acc := findScan test st1.currentLine file 1 initAcc
  let st2 := { st1 with searchMatches := acc.collected, currentMatchIndex := landedIdx acc }
  match landedOf acc with
  | some m =>
    ({ st2 with currentLine := m.line },
      "Found match 1 of " ++ toString acc.collected.length ++ "\n\n" ++
        formatScreen (getLines file m.line st2.screenHeight) (getTotalLines file))
  | none => (st2, "Pattern not found: \x22" ++ pattern ++ "\x22")

/-- `find` in literal mode (`is_regex` absent or false). -/
def literalFind (pattern : String) (file : FileLines) (st : FileNavigatorState) :
    FileNavigatorState × String :=
  findWith (literalTest pattern) pattern file st

/-- Cursor clamping of `go_to_line`: `Math.max(1, Math.min(line, totalLines))`. -/
def clampLine (line : Int) (totalLines : Nat) : Nat :=
  (max 1 (min line (totalLines : Int))).toNat

/-- The `go_to_line` tool.  `screenHeightArg` models the optional
`screen_height` argument; the source guards the update with JavaScript
truthiness (`if (screenHeight)`), so an absent argument or `0` leaves the
stored page height unchanged. -/
def goToLine (file : FileLines) (line : Int) (screenHeightArg : Option Nat)
    (st : FileNavigatorState) : FileNavigatorState × String :=
  let totalLines := getTotalLines file
  let st1 :=
    match screenHeightArg with
    | some h => if h ≠ 0 then { st with screenHeight := h } else st
    | none => st
  let st2 := { st1 with currentLine := clampLine line totalLines }
  (st2, formatScreen (getLines file st2.currentLine st2.screenHeight) totalLines)

/-- Informational soft-failure text of `next_match`/`prev_match`. -/
def noActiveSearchMsg : String := "No active search. Use \x27find\x27 first."

/-- The `next_match` tool.  JavaScript `%` is a truncating remainder, hence
`Int.tmod`; an out-of-range array access (impossible in reachable states,
which the invariant theorem establishes) is modelled by `getD` with a junk
record where the source would fault on `undefined`. -/
def nextMatch (file : FileLines) (st : FileNavigatorState) :
    FileNavigatorState × String :=
  if st.searchMatches.length = 0 then
    (st, noActiveSearchMsg)
  else
    let idx := (st.currentMatchIndex + 1).tmod (st.searchMatches.length : Int)
    let m := st.searchMatches.getD idx.toNat ⟨0, ""⟩
    let st1 := { st with currentMatchIndex := idx, currentLine := m.line }
    (st1, "Match " ++ toString (idx + 1) ++ " of " ++ toString st.searchMatches.length ++
      "\n\n" ++ formatScreen (getLines file st1.currentLine st1.screenHeight) (getTotalLines file))

/-- The `prev_match` tool (explicit wrap to `length - 1` when the decremented
index is negative). -/
def prevMatch (file : FileLines) (st : FileNavigatorState) :
    FileNavigatorState × String :=
  if st.searchMatches.length = 0 then
    (st, noActiveSearchMsg)
  else
    let idx0 := st.currentMatchIndex - 1
    let idx := if idx0 < 0 then (st.searchMatches.length : Int) - 1 else idx0
    let m := st.searchMatches.getD idx.toNat ⟨0, ""⟩
    let st1 := { st with currentMatchIndex := idx, currentLine := m.line }
    (st1, "Match " ++ toString (idx + 1) ++ " of " ++ toString st.searchMatches.length ++
      "\n\n" ++ formatScreen (getLines file st1.currentLine st1.screenHeight) (getTotalLines file))

/-- The `page_up` tool: `Math.max(1, currentLine - screenHeight)` (saturating
`Nat` subtraction followed by `max 1` agrees with the signed computation). -/
def pageUp (file : FileLines) (st : FileNavigatorState) :
    FileNavigatorState × String :=
  let st1 := { st with currentLine := max 1 (st.currentLine - st.screenHeight) }
  (st1, formatScreen (getLines file st1.currentLine st1.screenHeight) (getTotalLines file))

/-- The `page_down` tool: `Math.min(totalLines, currentLine + screenHeight)`
(note: no lower clamp, so an empty file yields `currentLine = 0`). -/
def pageDown (file : FileLines) (st : FileNavigatorState) :
    FileNavigatorState × String :=
  let totalLines := getTotalLines file
  let st1 := { st with currentLine := min totalLines (st.currentLine + st.screenHeight) }
  (st1, formatScreen (getLines file st1.currentLine st1.screenHeight) totalLines)

/-- Freshly created per-file state (`getNavigatorState`'s insertion). -/
def freshState (filename : String) : FileNavigatorState :=
  { currentFile := some filename, currentLine := 1,
    screenHeight := DEFAULT_SCREEN_HEIGHT, searchPattern := none,
    searchMatches := [], currentMatchIndex := -1 }

/-- The process-wide `navigatorStates` map, path-keyed. -/
abbrev NavTable := String → Option FileNavigatorState

/-- Lookup-or-create of `getNavigatorState`. -/
def getNavigatorState (tbl : NavTable) (filename : String) : FileNavigatorState :=
  (tbl filename).getD (freshState filename)

/-- Store the (created or mutated) state back under its path. -/
def tblSet (tbl : NavTable) (filename : String) (st : FileNavigatorState) : NavTable :=
  fun q => if q = filename then some st else tbl q

/-- The six tool invocations of the request dispatcher, each carrying its
`filename` argument. -/
inductive Command where
  | goToLineCmd (filename : String) (line : Int) (screenHeightArg : Option Nat)
  | findCmd (filename : String) (pattern : String) (isRegex : Bool)
  | nextMatchCmd (filename : String)
  | prevMatchCmd (filename : String)
  | pageUpCmd (filename : String)
  | pageDownCmd (filename : String)
  deriving DecidableEq, Repr

/-- The `filename` argument of a command. -/
def Command.filename : Command → String
  | .goToLineCmd f _ _ => f
  | .findCmd f _ _ => f
  | .nextMatchCmd f => f
  | .prevMatchCmd f => f
  | .pageUpCmd f => f
  | .pageDownCmd f => f

/-- Structured failures raised by the dispatcher (`McpError` kinds used by
the core): the `fs.access` failure and the regex-compilation failure. -/
inductive ToolError where
  | fileNotFound
  | invalidPattern
  deriving DecidableEq, Repr

/-- The reachable file contents: `none` models a path whose `fs.access`
check fails (`ENOENT`). -/
abbrev FileSystem := String → Option FileLines

/-- Oracle for `new RegExp(pattern, 'gi')` in regex mode: `none` when
compilation throws, otherwise the compiled regex's `test` behaviour.  The
regex engine lives in the JavaScript runtime, outside this repository;
theorems quantified over every oracle hold for the real engine. -/
abbrev RegexCompile := String → Option TestFn

/-- The request dispatcher (the `CallToolRequestSchema` handler's `switch`):
check file accessibility, fetch or create the path's navigator state, run
the tool and store the mutated state.  In the `find` tool the previous
search is cleared before pattern compilation, so an `invalidPattern` failure
still leaves the cleared state behind — exactly as the in-place mutation in
the source does. -/
def handleCall (regex : RegexCompile) (fs : FileSystem) (tbl : NavTable)
    (cmd : Command) : NavTable × Except ToolError String :=
  match fs cmd.filename with
  | none => (tbl, .error .fileNotFound)
  | some file =>
    match cmd with
    | .goToLineCmd f line sh =>
      let r := goToLine file line sh (getNavigatorState tbl f)
      (tblSet tbl f r.1, .ok r.2)
    | .findCmd f pattern isRegex =>
      let st := getNavigatorState tbl f
      match (if isRegex then regex pattern else some (literalTest pattern)) with
      | none => (tblSet tbl f (clearSearch st), .error .invalidPattern)
      | some test =>
        let r := findWith test pattern file st
        (tblSet tbl f r.1, .ok r.2)
    | .nextMatchCmd f =>
      let r := nextMatch file (getNavigatorState tbl f)
      (tblSet tbl f r.1, .ok r.2)
    | .prevMatchCmd f =>
      let r := prevMatch file (getNavigatorState tbl f)
      (tblSet tbl f r.1, .ok r.2)
    | .pageUpCmd f =>
      let r := pageUp file (getNavigatorState tbl f)
      (tblSet tbl f r.1, .ok r.2)
    | .pageDownCmd f =>
      let r := pageDown file (getNavigatorState tbl f)
      (tblSet tbl f r.1, .ok r.2)

/-- State invariant relative to a fixed file: the cursor bounds (weakened to
allow `currentLine = 0` on an empty file, which `page_down` produces), the
match-cursor validity, the result cap, and the auxiliary fact that every
stored match's line number lies within the file. -/
def Inv (file : FileLines) (st : FileNavigatorState) : Prop :=
  st.currentLine ≤ max 1 file.length ∧
  (file ≠ [] → 1 ≤ st.currentLine) ∧
  (st.searchMatches ≠ [] →
    0 ≤ st.currentMatchIndex ∧ st.currentMatchIndex < (st.searchMatches.length : Int)) ∧
  st.searchMatches.length ≤ MAX_SEARCH_RESULTS ∧
  (∀ m ∈ st.searchMatches, 1 ≤ m.line ∧ m.line ≤ file.length)

/-- Invariant of the scan loop tying `firstAfter` and `matchIndex` to the
collected matches: either no match at or after the cursor has been seen (and
the index is still -1), or `firstAfter` is the first such match, at index
`matchIndex`. -/
def ScanInv (cursor : Nat) (acc : FindAcc) : Prop :=
  (acc.firstAfter = none ∧ acc.matchIndex = -1 ∧ ∀ m ∈ acc.collected, m.line < cursor) ∨
  (∃ i : Nat, i < acc.collected.length ∧ acc.firstAfter = acc.collected[i]? ∧
    acc.matchIndex = (i : Int) ∧
    cursor ≤ (acc.collected.getD i ⟨0, ""⟩).line ∧
    ∀ j, j < i → (acc.collected.getD j ⟨0, ""⟩).line < cursor)

/-! ## Lemmas about the scan loop -/

/-- An in-range `getD` is a member of the list. -/
theorem getD_mem {l : List MatchRecord} {j : Nat} (hj : j < l.length) :
    l.getD j ⟨0, ""⟩ ∈ l := by
  rw [List.getD_eq_getElem?_getD, List.getElem?_eq_getElem hj]
  simp

/-- A `getD` on an appended singleton agrees with the original list in range. -/
theorem getD_append_lt {l : List MatchRecord} {a : MatchRecord} {j : Nat}
    (hj : j < l.length) :
    (l ++ [a]).getD j ⟨0, ""⟩ = l.getD j ⟨0, ""⟩ := by
  rw [List.getD_eq_getElem?_getD, List.getD_eq_getElem?_getD, List.getElem?_append_left hj]

/-- The scan loop preserves `ScanInv`, provided every already-collected match
lies strictly before the current line number. -/
theorem findScan_scanInv (test : TestFn) (cursor : Nat) :
    ∀ (file : FileLines) (lineNum : Nat) (acc : FindAcc),
      ScanInv cursor acc → (∀ m ∈ acc.collected, m.line < lineNum) →
      ScanInv cursor (findScan test cursor file lineNum acc) := by
  intro file
  induction file with
  | nil =>
    intro lineNum acc h _
    simpa [findScan] using h
  | cons l rest ih =>
    intro lineNum acc h hlt
    rw [findScan]
    by_cases hr : (test l acc.lastIndex).1
    · simp only [hr, if_true]
      by_cases hfa : acc.firstAfter.isNone ∧ cursor ≤ lineNum
      · -- the new match becomes `firstMatchAfterCursor`
        rcases h with ⟨hnone, hmi, hall⟩ | ⟨i, hi, hfae, _, _, _⟩
        · have hnew : ScanInv cursor
              ⟨acc.collected ++ [(⟨lineNum, l⟩ : MatchRecord)], some ⟨lineNum, l⟩,
                ((acc.collected ++ [(⟨lineNum, l⟩ : MatchRecord)]).length : Int) - 1,
                (test l acc.lastIndex).2⟩ := by
            right
            refine ⟨acc.collected.length, by simp, ?_, by simp, ?_, ?_⟩
            · simp [List.getElem?_concat_length]
            · simp only [List.getD_eq_getElem?_getD, List.getElem?_concat_length, Option.getD_some]
              exact hfa.2
            · intro j hj
              rw [getD_append_lt hj]
              exact hall _ (getD_mem hj)
          simp only [hfa, if_true]
          split
          · exact hnew
          · refine ih (lineNum + 1) _ hnew ?_
            intro m hm
            rcases List.mem_append.mp hm with hm | hm
            · exact Nat.lt_succ_of_lt (hlt m hm)
            · simp at hm; subst hm; simp
        · -- impossible: `firstAfter` is `some` yet `isNone`
          exfalso
          rw [List.getElem?_eq_getElem hi] at hfae
          rw [hfae] at hfa
          simp at hfa
      · -- `firstMatchAfterCursor` and its index stay as they were
        rcases h with ⟨hnone, hmi, hall⟩ | ⟨i, hi, hfae, hmi, hcu, hbef⟩
        · have hcur : lineNum < cursor := by
            rcases Decidable.not_and_iff_or_not.mp hfa with h1 | h2
            · simp [hnone] at h1
            · omega
          have hnew : ScanInv cursor
              ⟨acc.collected ++ [(⟨lineNum, l⟩ : MatchRecord)], acc.firstAfter, acc.matchIndex,
                (test l acc.lastIndex).2⟩ := by
            left
            refine ⟨hnone, hmi, ?_⟩
            intro m hm
            rcases List.mem_append.mp hm with hm | hm
            · exact hall m hm
            · simp at hm; subst hm; simpa using hcur
          simp only [hfa, if_false]
          split
          · exact hnew
          · refine ih (lineNum + 1) _ hnew ?_
            intro m hm
            rcases List.mem_append.mp hm with hm | hm
            · exact Nat.lt_succ_of_lt (hlt m hm)
            · simp at hm; subst hm; simp
        · have hnew : ScanInv cursor
              ⟨acc.collected ++ [(⟨lineNum, l⟩ : MatchRecord)], acc.firstAfter, acc.matchIndex,
                (test l acc.lastIndex).2⟩ := by
            right
            refine ⟨i, ?_, ?_, hmi, ?_, ?_⟩
            · simp only [List.length_append, List.length_cons, List.length_nil]
              omega
            · rw [hfae]
              exact (List.getElem?_append_left hi).symm
            · rwa [getD_append_lt hi]
            · intro j hj
              rw [getD_append_lt (Nat.lt_trans hj hi)]
              exact hbef j hj
          simp only [hfa, if_false]
          split
          · exact hnew
          · refine ih (lineNum + 1) _ hnew ?_
            intro m hm
            rcases List.mem_append.mp hm with hm | hm
            · exact Nat.lt_succ_of_lt (hlt m hm)
            · simp at hm; subst hm; simp
    · simp only [hr, if_false]
      refine ih (lineNum + 1) ⟨acc.collected, acc.firstAfter, acc.matchIndex, _⟩ ?_ ?_
      · rcases h with ⟨h1, h2, h3⟩ | ⟨i, hi, h2, h3, h4, h5⟩
        · exact Or.inl ⟨h1, h2, h3⟩
        · exact Or.inr ⟨i, hi, h2, h3, h4, h5⟩
      · intro m hm
        exact Nat.lt_succ_of_lt (hlt m hm)

/-- The scan loop never exceeds the result cap: the loop breaks as soon as
the collected count reaches `MAX_SEARCH_RESULTS`. -/
theorem findScan_length (test : TestFn) (cursor : Nat) :
    ∀ (file : FileLines) (lineNum : Nat) (acc : FindAcc),
      acc.collected.length < MAX_SEARCH_RESULTS →
      (findScan test cursor file lineNum acc).collected.length ≤ MAX_SEARCH_RESULTS := by
  intro file
  induction file with
  | nil =>
    intro lineNum acc h
    simp [findScan]
    omega
  | cons l rest ih =>
    intro lineNum acc h
    rw [findScan]
    by_cases hr : (test l acc.lastIndex).1
    · simp only [hr, if_true]
      split
      · simp
        omega
      · refine ih (lineNum + 1) _ ?_
        simp_all
    · simp only [hr, if_false]
      exact ih (lineNum + 1) _ h

/-- Every match collected by the scan that was not already in the accumulator
carries a line number in `[lineNum, lineNum + file.length)`. -/
theorem findScan_line_bounds (test : TestFn) (cursor : Nat) :
    ∀ (file : FileLines) (lineNum : Nat) (acc : FindAcc),
      1 ≤ lineNum →
      (∀ m ∈ acc.collected, 1 ≤ m.line ∧ m.line < lineNum) →
      ∀ m ∈ (findScan test cursor file lineNum acc).collected,
        1 ≤ m.line ∧ m.line < lineNum + file.length := by
  intro file
  induction file with
  | nil =>
    intro lineNum acc h1 hb m hm
    simp only [findScan] at hm
    simpa using hb m hm
  | cons l rest ih =>
    intro lineNum acc h1 hb
    rw [findScan]
    by_cases hr : (test l acc.lastIndex).1
    · simp only [hr, if_true]
      have hb' : ∀ m ∈ acc.collected ++ [(⟨lineNum, l⟩ : MatchRecord)],
          1 ≤ m.line ∧ m.line < lineNum + 1 := by
        intro m hm
        rcases List.mem_append.mp hm with hm | hm
        · have := hb m hm
          omega
        · simp at hm
          subst hm
          simp
          omega
      split
      · intro m hm
        have := hb' m hm
        simp only [List.length_cons]
        omega
      · intro m hm
        have := ih (lineNum + 1) _ (by omega) hb' m hm
        simp only [List.length_cons]
        omega
    · simp only [hr, if_false]
      intro m hm
      have := ih (lineNum + 1) ⟨acc.collected, acc.firstAfter, acc.matchIndex, _⟩ (by omega)
        (by intro x hx; have := hb x hx; omega) m hm
      simp only [List.length_cons]
      omega

/-! ## Lemmas about the wrap step and `findWith` -/

/-- `landedOf` is `none` exactly when the scan collected nothing. -/
theorem landedOf_eq_none_iff {cursor : Nat} {acc : FindAcc} (hinv : ScanInv cursor acc) :
    landedOf acc = none ↔ acc.collected = [] := by
  constructor
  · intro h
    unfold landedOf at h
    rcases hfa : acc.firstAfter with _ | m
    · rcases hc : acc.collected with _ | ⟨m0, ms⟩
      · rfl
      · rw [hfa, hc] at h
        simp at h
    · rw [hfa] at h
      simp at h
  · intro h
    rcases hinv with ⟨hnone, _, _⟩ | ⟨i, hi, _, _, _, _⟩
    · unfold landedOf
      rw [hnone, h]
    · rw [h] at hi
      simp at hi

/-- Characterisation of the landing: under `ScanInv`, when the scan collected
at least one match, the landed index is a valid index, the landed match is
the entry at that index, and it is either the first collected match at or
after the cursor, or — when every collected match is before the cursor —
match 0. -/
theorem landed_spec (cursor : Nat) (acc : FindAcc) (hinv : ScanInv cursor acc)
    (hne : acc.collected ≠ []) :
    ∃ i : Nat, landedIdx acc = (i : Int) ∧ i < acc.collected.length ∧
      landedOf acc = some (acc.collected.getD i ⟨0, ""⟩) ∧
      ((cursor ≤ (acc.collected.getD i ⟨0, ""⟩).line ∧
        ∀ j, j < i → (acc.collected.getD j ⟨0, ""⟩).line < cursor) ∨
       (i = 0 ∧ ∀ m ∈ acc.collected, m.line < cursor)) := by
  rcases hinv with ⟨hnone, hmi, hall⟩ | ⟨i, hi, hfae, hmi, hcu, hbef⟩
  · rcases hc : acc.collected with _ | ⟨m0, ms⟩
    · exact absurd hc hne
    · rw [hc] at hall
      refine ⟨0, ?_, by simp, ?_, Or.inr ⟨rfl, hall⟩⟩
      · unfold landedIdx
        rw [hnone, hc]
        simp
      · unfold landedOf
        rw [hnone, hc]
        simp
  · have hsome : acc.firstAfter = some (acc.collected.getD i ⟨0, ""⟩) := by
      rw [hfae, List.getElem?_eq_getElem hi]
      simp [List.getD_eq_getElem?_getD, List.getElem?_eq_getElem hi]
    refine ⟨i, ?_, hi, ?_, Or.inl ⟨hcu, hbef⟩⟩
    · unfold landedIdx
      rw [hsome]
      exact hmi
    · unfold landedOf
      rw [hsome]

/-- The scan performed by `findWith`, with `ScanInv` established. -/
theorem findWith_scanInv (test : TestFn) (st : FileNavigatorState) (file : FileLines) :
    ScanInv st.currentLine (findScan test st.currentLine file 1 initAcc) := by
  refine findScan_scanInv test st.currentLine file 1 initAcc ?_ ?_
  · left
    simp [initAcc]
  · simp [initAcc]

/-- Projections of the state produced by `findWith`: the stored matches are
exactly the fresh scan's (the previous search is discarded), the pattern is
recorded, the match cursor is the wrap result, the cursor moves to the
landed match when there is one, and the page height and file tag are kept. -/
theorem findWith_fst (test : TestFn) (pattern : String) (file : FileLines)
    (st : FileNavigatorState) :
    (findWith test pattern file st).1.searchMatches
        = (findScan test st.currentLine file 1 initAcc).collected ∧
    (findWith test pattern file st).1.searchPattern = some pattern ∧
    (findWith test pattern file st).1.currentMatchIndex
        = landedIdx (findScan test st.currentLine file 1 initAcc) ∧
    (findWith test pattern file st).1.currentLine
        = (match landedOf (findScan test st.currentLine file 1 initAcc) with
           | some m => m.line
           | none => st.currentLine) ∧
    (findWith test pattern file st).1.screenHeight = st.screenHeight ∧
    (findWith test pattern file st).1.currentFile = st.currentFile := by
  simp only [findWith, clearSearch]
  rcases hl : landedOf (findScan test st.currentLine file 1 initAcc) with _ | m <;>
    simp [hl]

/-! ## Claim theorems -/

/-- C2: for every find invocation (any matcher, hence both literal and regex
mode) that yields at least one match, the stored matches are exactly the
fresh scan's (the previous active search is discarded) with the pattern
recorded, and the landed match — where `currentLine` ends up and
`currentMatchIndex` points — is the first collected match whose line number
is at or after the cursor held before the search, or match index 0 when
every collected match lies before that cursor. -/
theorem find_lands_first_match_after_cursor (test : TestFn) (pattern : String)
    (file : FileLines) (st st' : FileNavigatorState) (out : String)
    (h : findWith test pattern file st = (st', out))
    (hm : st'.searchMatches ≠ []) :
    st'.searchMatches = (findScan test st.currentLine file 1 initAcc).collected ∧
    st'.searchPattern = some pattern ∧
    ∃ i : Nat, st'.currentMatchIndex = (i : Int) ∧ i < st'.searchMatches.length ∧
      st'.currentLine = (st'.searchMatches.getD i ⟨0, ""⟩).line ∧
      ((st.currentLine ≤ (st'.searchMatches.getD i ⟨0, ""⟩).line ∧
        ∀ j, j < i → (st'.searchMatches.getD j ⟨0, ""⟩).line < st.currentLine) ∨
       (i = 0 ∧ ∀ m ∈ st'.searchMatches, m.line < st.currentLine)) := by
  have hst : (findWith test pattern file st).1 = st' := by rw [h]
  subst hst
  obtain ⟨h1, h2, h3, h4, _, _⟩ := findWith_fst test pattern file st
  have hinv := findWith_scanInv test st file
  have hne : (findScan test st.currentLine file 1 initAcc).collected ≠ [] := by
    rwa [h1] at hm
  obtain ⟨i, hI1, hI2, hI3, hI4⟩ := landed_spec st.currentLine _ hinv hne
  refine ⟨h1, h2, i, ?_, ?_, ?_, ?_⟩
  · rw [h3, hI1]
  · rw [h1]
    exact hI2
  · rw [h4, hI3, h1]
  · rw [h1]
    exact hI4

/-- Witness for C2 at a concrete input: searching `"foo"` in the two-line
file `["b", "foo"]` from a fresh state lands with the pattern recorded. -/
theorem find_lands_first_match_after_cursor_witness :
    (findWith (literalTest "foo") "foo" ["b", "foo"] (freshState "w2")).1.searchPattern
      = some "foo" :=
  (find_lands_first_match_after_cursor (literalTest "foo") "foo" ["b", "foo"]
    (freshState "w2") _ _ rfl (by decide)).2.1

/-- C8: `next_match` and `prev_match` with no stored matches raise nothing:
they return the informational "no active search" text and leave the state
entirely unchanged. -/
theorem next_prev_match_no_active_search (file : FileLines) (st : FileNavigatorState)
    (h : st.searchMatches = []) :
    nextMatch file st = (st, noActiveSearchMsg) ∧
    prevMatch file st = (st, noActiveSearchMsg) := by
  constructor <;> simp [nextMatch, prevMatch, h]

/-- Witness for C8 at a concrete input: a fresh state has no stored matches
and both cycling tools return the informational message unchanged. -/
theorem next_prev_match_no_active_search_witness :
    nextMatch ["a"] (freshState "w8") = (freshState "w8", noActiveSearchMsg) ∧
    prevMatch ["a"] (freshState "w8") = (freshState "w8", noActiveSearchMsg) :=
  next_prev_match_no_active_search ["a"] (freshState "w8") rfl

/-- C4: `go_to_line` always leaves the cursor at
`clamp(line, 1, totalLines)`, and a second identical call changes nothing —
same state and same rendered output (idempotence). -/
theorem go_to_line_clamps_and_is_idempotent (file : FileLines) (line : Int)
    (sh : Option Nat) (st : FileNavigatorState) :
    (goToLine file line sh st).1.currentLine = clampLine line (getTotalLines file) ∧
    goToLine file line sh (goToLine file line sh st).1 = goToLine file line sh st := by
  rcases sh with _ | h
  · exact ⟨rfl, rfl⟩
  · by_cases hz : h = 0
    · subst hz
      exact ⟨rfl, rfl⟩
    · constructor
      · simp [goToLine, hz]
      · simp [goToLine, hz]

/-- C1 (code bug): a line is NOT recorded as a match independently of
earlier lines.  In the file `["afoo", "foo"]`, a literal search for `"foo"`
collects only line 1: the single shared `g`-flag regex enters line 2 with
`lastIndex = 4` left over from the match on line 1, finds nothing at
position ≥ 4 in the 3-character line, and resets — even though a fresh
matcher (second conjunct, `lastIndex = 0`) finds `"foo"` in that line. -/
theorem find_misses_match_after_matching_line :
    (literalFind "foo" ["afoo", "foo"] (freshState "c1")).1.searchMatches
        = [⟨1, "afoo"⟩] ∧
    (literalTest "foo" "foo" 0).1 = true := by
  constructor <;> decide

/-- C10 (code bug): literal-mode matching is case-insensitive — a fresh
matcher reports `"FOO"` for pattern `"foo"` (second conjunct) — but a line
containing the pattern in a different case is still lost to the shared
`lastIndex` carry-over: in `["xFOO", "FOO"]` only line 1 is collected. -/
theorem literal_find_case_insensitive_but_stateful :
    (literalFind "foo" ["xFOO", "FOO"] (freshState "c10")).1.searchMatches
        = [⟨1, "xFOO"⟩] ∧
    (literalTest "foo" "FOO" 0).1 = true := by
  constructor <;> decide

/-- Counterexample to C3 as stated: on an empty file, `page_down` computes
`Math.min(0, 1 + 30) = 0`, so afterwards `cursorLine` is `0`, not the
claimed `1`. -/
theorem page_down_empty_file_cursor_zero :
    (pageDown [] (freshState "c3")).1.currentLine = 0 ∧
    (pageDown [] (freshState "c3")).1.currentLine ≠ 1 := by
  constructor <;> decide

/-- Counterexample to C5 as stated: with the session page size set to 2 on a
one-line file, the rendered output of `go_to_line` is the join of 31 rows
(1 content row, 29 fillers up to the DEFAULT screen height of 30, and the
banner), not the 3 rows that filling up to the configured page size of 2
would give. -/
theorem formatter_fills_default_height_not_page_size :
    (goToLine ["a"] 1 (some 2) (freshState "c5")).2
        = String.intercalate "\n" (formatRows (getLines ["a"] 1 2) 1) ∧
    (formatRows (getLines ["a"] 1 2) 1).length = 31 ∧
    (formatRows (getLines ["a"] 1 2) 1).length ≠ 3 := by
  refine ⟨rfl, by decide, by decide⟩

/-- C5 amended: for every non-empty window whose last rendered line number
has reached `totalLines`, the formatter appends filler rows up to
`DEFAULT_SCREEN_HEIGHT` (30) — not the session's configured page size —
followed by the end-of-file banner stating the total line count. -/
theorem formatScreen_eof_filler_and_banner (lines : List (Nat × String))
    (totalLines : Nat) (h1 : lines ≠ [])
    (h2 : totalLines ≤ lastLineNumber lines) :
    formatScreen lines totalLines = String.intercalate "\n"
      (lines.map (fun p =>
          padStart (toString p.1) (lineNumWidth lines totalLines) ' ' ++ " | " ++ p.2)
        ++ List.replicate (DEFAULT_SCREEN_HEIGHT - lines.length)
            (padStart "~" (lineNumWidth lines totalLines + 1) ' ')
        ++ [eofBanner totalLines]) := by
  rw [formatScreen, if_neg (by simpa using h1)]
  rw [formatRows]
  simp only [h2, if_true]

/-- Witness for C5's amended theorem at a concrete input: a one-line window
of a one-line file renders content, 29 fillers and the banner. -/
theorem formatScreen_eof_filler_and_banner_witness :
    formatScreen [(1, "a")] 1 = String.intercalate "\n"
      ([(1, "a")].map (fun p =>
          padStart (toString p.1) (lineNumWidth [(1, "a")] 1) ' ' ++ " | " ++ p.2)
        ++ List.replicate (DEFAULT_SCREEN_HEIGHT - 1)
            (padStart "~" (lineNumWidth [(1, "a")] 1 + 1) ' ')
        ++ [eofBanner 1]) :=
  formatScreen_eof_filler_and_banner [(1, "a")] 1 (by decide) (by decide)

/-- Counterexample to C6 as stated: a regex-mode `find` whose pattern fails
to compile does NOT leave the file's stored state unchanged — the previously
stored matches are cleared before compilation is attempted.  Oracle: the
pattern does not compile; the table holds a previous search for `"f"`. -/
theorem find_invalid_pattern_clears_matches :
    ((handleCall (fun _ => none) (fun _ => some ["x"])
        (fun q => if q = "f" then
            some ⟨some "f", 5, 30, some "old", [⟨2, "old"⟩], 0⟩ else none)
        (.findCmd "f" "(" true)).1 "f")
      ≠ some ⟨some "f", 5, 30, some "old", [⟨2, "old"⟩], 0⟩ := by
  decide

/-- C6 amended: when a regex-mode pattern fails to compile, the
`invalidPattern` failure is raised before any file scan occurs (the result
does not depend on the file's content), and the failed command leaves
`cursorLine`, the page height and the stored pattern unchanged — but it
clears `searchMatches` and resets `currentMatchIndex` to `-1`, because the
source clears them before compiling. -/
theorem find_invalid_pattern_before_scan (regex : RegexCompile) (fs : FileSystem)
    (tbl : NavTable) (f pattern : String)
    (hf : fs f ≠ none) (hc : regex pattern = none) :
    handleCall regex fs tbl (.findCmd f pattern true)
      = (tblSet tbl f (clearSearch (getNavigatorState tbl f)), .error .invalidPattern) ∧
    (clearSearch (getNavigatorState tbl f)).currentLine
        = (getNavigatorState tbl f).currentLine ∧
    (clearSearch (getNavigatorState tbl f)).screenHeight
        = (getNavigatorState tbl f).screenHeight ∧
    (clearSearch (getNavigatorState tbl f)).searchPattern
        = (getNavigatorState tbl f).searchPattern ∧
    (clearSearch (getNavigatorState tbl f)).searchMatches = [] ∧
    (clearSearch (getNavigatorState tbl f)).currentMatchIndex = -1 := by
  rcases hfs : fs f with _ | file
  · exact absurd hfs hf
  · refine ⟨?_, rfl, rfl, rfl, rfl, rfl⟩
    rw [handleCall]
    simp only [Command.filename, hfs, hc, if_true]

/-- Witness for C6's amended theorem at a concrete input. -/
theorem find_invalid_pattern_before_scan_witness :
    handleCall (fun _ => none) (fun _ => some ["x"]) (fun _ => none)
        (.findCmd "g" "(" true)
      = (tblSet (fun _ => none) "g" (clearSearch (getNavigatorState (fun _ => none) "g")),
          .error .invalidPattern) :=
  (find_invalid_pattern_before_scan (fun _ => none) (fun _ => some ["x"]) (fun _ => none)
    "g" "(" (by simp) rfl).1

/-- C3 amended: the claimed invariants hold for every state reachable from a
fresh state under a fixed file — the fresh state satisfies them, and every
operation (including the `find` of any matcher and the pre-compilation
clearing of a failed `find`) preserves them.  The invariant `Inv` is the
claim's, weakened exactly where the code violates it: on an empty file
`cursorLine` may be `0` (page_down) rather than the claimed `1`, and the
preservation hypothesis additionally records that every stored match's line
number lies within the file (true of every reachable state and needed for
`next_match`/`prev_match` to stay in bounds). -/
theorem navigation_preserves_invariants (file : FileLines) :
    (∀ f, Inv file (freshState f)) ∧
    ∀ st : FileNavigatorState, Inv file st →
      (∀ line sh, Inv file (goToLine file line sh st).1) ∧
      (∀ (test : TestFn) (pattern : String), Inv file (findWith test pattern file st).1) ∧
      Inv file (clearSearch st) ∧
      Inv file (nextMatch file st).1 ∧
      Inv file (prevMatch file st).1 ∧
      Inv file (pageUp file st).1 ∧
      Inv file (pageDown file st).1 := by
  constructor
  · intro f
    refine ⟨?_, ?_, ?_, ?_, ?_⟩ <;> simp [freshState, MAX_SEARCH_RESULTS]
  intro st hInv
  obtain ⟨A, B, C, D, E⟩ := hInv
  refine ⟨?_, ?_, ?_, ?_, ?_, ?_, ?_⟩
  · -- go_to_line
    intro line sh
    have heq : (goToLine file line sh st).1.currentLine
        = clampLine line (getTotalLines file) ∧
        (goToLine file line sh st).1.searchMatches = st.searchMatches ∧
        (goToLine file line sh st).1.currentMatchIndex = st.currentMatchIndex := by
      rcases sh with _ | h
      · exact ⟨rfl, rfl, rfl⟩
      · by_cases hz : h = 0
        · subst hz
          exact ⟨rfl, rfl, rfl⟩
        · simp [goToLine, hz]
    obtain ⟨e1, e2, e3⟩ := heq
    refine ⟨?_, ?_, ?_, ?_, ?_⟩
    · rw [e1]
      unfold clampLine getTotalLines
      omega
    · intro _
      rw [e1]
      unfold clampLine getTotalLines
      omega
    · rw [e2, e3]
      exact C
    · rw [e2]
      exact D
    · rw [e2]
      exact E
  · -- find (any matcher, hence any compiled pattern)
    intro test pattern
    obtain ⟨h1, h2, h3, h4, _, _⟩ := findWith_fst test pattern file st
    have hinv' := findWith_scanInv test st file
    have hlen' : (findScan test st.currentLine file 1 initAcc).collected.length
        ≤ MAX_SEARCH_RESULTS :=
      findScan_length test st.currentLine file 1 initAcc (by simp [initAcc, MAX_SEARCH_RESULTS])
    have hbnd' : ∀ m ∈ (findScan test st.currentLine file 1 initAcc).collected,
        1 ≤ m.line ∧ m.line ≤ file.length := by
      intro m hm
      have := findScan_line_bounds test st.currentLine file 1 initAcc (by omega)
        (by simp [initAcc]) m hm
      omega
    have hcl : (findWith test pattern file st).1.currentLine = st.currentLine ∨
        ∃ i : Nat, i < (findScan test st.currentLine file 1 initAcc).collected.length ∧
          (findWith test pattern file st).1.currentLine
            = ((findScan test st.currentLine file 1 initAcc).collected.getD i ⟨0, ""⟩).line := by
      rcases hl : landedOf (findScan test st.currentLine file 1 initAcc) with _ | m
      · left
        rw [h4, hl]
      · right
        have hne : (findScan test st.currentLine file 1 initAcc).collected ≠ [] := by
          intro hempty
          rw [(landedOf_eq_none_iff hinv').mpr hempty] at hl
          exact Option.noConfusion hl
        obtain ⟨i, _, hi, hL3, _⟩ := landed_spec st.currentLine _ hinv' hne
        rw [hl] at hL3
        injection hL3 with hL3
        refine ⟨i, hi, ?_⟩
        rw [h4, hl, hL3]
    refine ⟨?_, ?_, ?_, ?_, ?_⟩
    · rcases hcl with h | ⟨i, hi, e⟩
      · rw [h]
        exact A
      · rw [e]
        have := hbnd' _ (getD_mem hi)
        omega
    · intro hne
      rcases hcl with h | ⟨i, hi, e⟩
      · rw [h]
        exact B hne
      · rw [e]
        have := hbnd' _ (getD_mem hi)
        omega
    · rw [h1, h3]
      intro hne
      obtain ⟨i, hI1, hI2, _, _⟩ := landed_spec st.currentLine _ hinv' hne
      rw [hI1]
      constructor
      · omega
      · exact_mod_cast hI2
    · rw [h1]
      exact hlen'
    · rw [h1]
      exact hbnd'
  · -- the pre-compilation clearing of find
    refine ⟨A, fun h => B h, ?_, Nat.zero_le _, ?_⟩
    · intro h
      simp [clearSearch] at h
    · intro m hm
      simp [clearSearch] at hm
  · -- next_match
    by_cases hz : st.searchMatches.length = 0
    · have : (nextMatch file st).1 = st := by simp [nextMatch, hz]
      rw [this]
      exact ⟨A, B, C, D, E⟩
    · have hne : st.searchMatches ≠ [] := by
        intro h
        rw [h] at hz
        exact hz rfl
      obtain ⟨hge, hlt⟩ := C hne
      have hL : (0 : Int) < (st.searchMatches.length : Int) := by
        have : 0 < st.searchMatches.length := Nat.pos_of_ne_zero hz
        exact_mod_cast this
      have htm : (st.currentMatchIndex + 1).tmod (st.searchMatches.length : Int)
          = (st.currentMatchIndex + 1) % (st.searchMatches.length : Int) :=
        Int.tmod_eq_emod (by omega) (by omega)
      have hnn : 0 ≤ (st.currentMatchIndex + 1) % (st.searchMatches.length : Int) :=
        Int.emod_nonneg _ (by omega)
      have hub : (st.currentMatchIndex + 1) % (st.searchMatches.length : Int)
          < (st.searchMatches.length : Int) :=
        Int.emod_lt_of_pos _ hL
      have htn : ((st.currentMatchIndex + 1).tmod (st.searchMatches.length : Int)).toNat
          < st.searchMatches.length := by
        rw [htm]
        omega
      have hmem := getD_mem (l := st.searchMatches) htn
      have hb := E _ hmem
      simp only [nextMatch, hz, if_false]
      refine ⟨?_, ?_, ?_, D, E⟩
      · simp only []
        omega
      · intro _
        simp only []
        omega
      · intro _
        simp only []
        rw [htm]
        exact ⟨hnn, hub⟩
  · -- prev_match
    by_cases hz : st.searchMatches.length = 0
    · have : (prevMatch file st).1 = st := by simp [prevMatch, hz]
      rw [this]
      exact ⟨A, B, C, D, E⟩
    · have hne : st.searchMatches ≠ [] := by
        intro h
        rw [h] at hz
        exact hz rfl
      obtain ⟨hge, hlt⟩ := C hne
      have hLpos : 0 < st.searchMatches.length := Nat.pos_of_ne_zero hz
      by_cases hneg : st.currentMatchIndex - 1 < 0
      · have hidx : (if st.currentMatchIndex - 1 < 0 then (st.searchMatches.length : Int) - 1
            else st.currentMatchIndex - 1) = (st.searchMatches.length : Int) - 1 := if_pos hneg
        have htn : ((st.searchMatches.length : Int) - 1).toNat < st.searchMatches.length := by
          omega
        have hmem := getD_mem (l := st.searchMatches) htn
        have hb := E _ hmem
        simp only [prevMatch, hz, if_false, hidx]
        refine ⟨?_, ?_, ?_, D, E⟩
        · simp only []
          omega
        · intro _
          simp only []
          omega
        · intro _
          simp only []
          omega
      · have hidx : (if st.currentMatchIndex - 1 < 0 then (st.searchMatches.length : Int) - 1
            else st.currentMatchIndex - 1) = st.currentMatchIndex - 1 := if_neg hneg
        have htn : (st.currentMatchIndex - 1).toNat < st.searchMatches.length := by
          omega
        have hmem := getD_mem (l := st.searchMatches) htn
        have hb := E _ hmem
        simp only [prevMatch, hz, if_false, hidx]
        refine ⟨?_, ?_, ?_, D, E⟩
        · simp only []
          omega
        · intro _
          simp only []
          omega
        · intro _
          simp only []
          omega
  · -- page_up
    refine ⟨?_, ?_, C, D, E⟩ <;> simp only [pageUp] <;> omega
  · -- page_down
    refine ⟨?_, ?_, C, D, E⟩ <;> simp only [pageDown, getTotalLines]
    · omega
    · intro hne
      have hLpos : 0 < file.length := List.length_pos.mpr hne
      have := B hne
      omega

/-- Witness for C3's amended theorem at a concrete input: the invariants
hold after `page_up` on a one-line file from a fresh state. -/
theorem navigation_preserves_invariants_witness :
    Inv ["a"] (pageUp ["a"] (freshState "w3")).1 :=
  (((navigation_preserves_invariants ["a"]).2 (freshState "w3")
    ((navigation_preserves_invariants ["a"]).1 "w3")).2.2.2.2.2).1

/-- The state produced by `next_match` when a search is active. -/
theorem nextMatch_fst (file : FileLines) (st : FileNavigatorState)
    (hz : st.searchMatches.length ≠ 0) :
    (nextMatch file st).1 = { st with
      currentMatchIndex := (st.currentMatchIndex + 1).tmod (st.searchMatches.length : Int),
      currentLine := (st.searchMatches.getD
        ((st.currentMatchIndex + 1).tmod (st.searchMatches.length : Int)).toNat
        ⟨0, ""⟩).line } := by
  simp only [nextMatch, if_neg hz]

/-- Iterating `next_match` from a state whose match cursor is valid and
whose line cursor sits on the current match: after `k` steps the matches are
unchanged, the match cursor has advanced by `k` modulo the match count, and
the line cursor sits on that match. -/
theorem nextMatch_iterate (file : FileLines) (st : FileNavigatorState)
    (hne : st.searchMatches ≠ [])
    (h0 : 0 ≤ st.currentMatchIndex)
    (hlt : st.currentMatchIndex < (st.searchMatches.length : Int))
    (hcur : st.currentLine
        = (st.searchMatches.getD st.currentMatchIndex.toNat ⟨0, ""⟩).line) :
    ∀ k : Nat,
      ((fun s => (nextMatch file s).1)^[k] st).searchMatches = st.searchMatches ∧
      ((fun s => (nextMatch file s).1)^[k] st).currentMatchIndex
        = (st.currentMatchIndex + k) % (st.searchMatches.length : Int) ∧
      ((fun s => (nextMatch file s).1)^[k] st).currentLine
        = (st.searchMatches.getD
            ((st.currentMatchIndex + k) % (st.searchMatches.length : Int)).toNat
            ⟨0, ""⟩).line := by
  have hLpos : 0 < st.searchMatches.length := List.length_pos.mpr hne
  have hL : (0 : Int) < (st.searchMatches.length : Int) := by exact_mod_cast hLpos
  intro k
  induction k with
  | zero =>
    refine ⟨rfl, ?_, ?_⟩
    · show st.currentMatchIndex = _
      rw [show st.currentMatchIndex + ((0 : Nat) : Int) = st.currentMatchIndex by
            push_cast; ring,
          Int.emod_eq_of_lt h0 hlt]
    · show st.currentLine = _
      rw [show st.currentMatchIndex + ((0 : Nat) : Int) = st.currentMatchIndex by
            push_cast; ring,
          Int.emod_eq_of_lt h0 hlt]
      exact hcur
  | succ k ih =>
    obtain ⟨ih1, ih2, ih3⟩ := ih
    set Y := (fun s => (nextMatch file s).1)^[k] st with hY
    have hz' : Y.searchMatches.length ≠ 0 := by
      rw [ih1]
      omega
    have hnn2 : 0 ≤ (st.currentMatchIndex + (k : Int)) % (st.searchMatches.length : Int) + 1 := by
      have := Int.emod_nonneg (st.currentMatchIndex + (k : Int))
        (show (st.searchMatches.length : Int) ≠ 0 by omega)
      omega
    have hk : st.currentMatchIndex + (k : Int) + 1
        = st.currentMatchIndex + (((k + 1 : Nat)) : Int) := by
      push_cast
      ring
    rw [Function.iterate_succ_apply', nextMatch_fst file Y hz']
    refine ⟨ih1, ?_, ?_⟩
    · show (Y.currentMatchIndex + 1).tmod (Y.searchMatches.length : Int) = _
      rw [ih1, ih2, Int.tmod_eq_emod hnn2 (Int.natCast_nonneg _), Int.emod_add_emod, hk]
    · show (Y.searchMatches.getD
          ((Y.currentMatchIndex + 1).tmod (Y.searchMatches.length : Int)).toNat
          ⟨0, ""⟩).line = _
      rw [ih1, ih2, Int.tmod_eq_emod hnn2 (Int.natCast_nonneg _), Int.emod_add_emod, hk]

/-- C7: after a `find` that landed on a match, invoking `next_match` exactly
`len(matches)` times returns both the match cursor and the line cursor to the
originally landed match (cyclic closure of the modular advance). -/
theorem next_match_cycles_back (test : TestFn) (pattern : String) (file : FileLines)
    (st st' : FileNavigatorState) (out : String)
    (h : findWith test pattern file st = (st', out))
    (hm : st'.searchMatches ≠ []) :
    ((fun s => (nextMatch file s).1)^[st'.searchMatches.length] st').currentMatchIndex
      = st'.currentMatchIndex ∧
    ((fun s => (nextMatch file s).1)^[st'.searchMatches.length] st').currentLine
      = st'.currentLine := by
  have hst : (findWith test pattern file st).1 = st' := by rw [h]
  subst hst
  obtain ⟨h1, h2, h3, h4, _, _⟩ := findWith_fst test pattern file st
  have hinv' := findWith_scanInv test st file
  have hne' : (findScan test st.currentLine file 1 initAcc).collected ≠ [] := by
    rwa [h1] at hm
  obtain ⟨i, hI1, hI2, hI3, _⟩ := landed_spec st.currentLine _ hinv' hne'
  have hidx : (findWith test pattern file st).1.currentMatchIndex = (i : Int) := by
    rw [h3, hI1]
  have hlt : (findWith test pattern file st).1.currentMatchIndex
      < ((findWith test pattern file st).1.searchMatches.length : Int) := by
    rw [hidx, h1]
    exact_mod_cast hI2
  have hcur : (findWith test pattern file st).1.currentLine
      = ((findWith test pattern file st).1.searchMatches.getD
          (findWith test pattern file st).1.currentMatchIndex.toNat ⟨0, ""⟩).line := by
    rw [h4, hI3, h1, hidx, show ((i : Nat) : Int).toNat = i by omega]
  obtain ⟨e1, e2, e3⟩ := nextMatch_iterate file (findWith test pattern file st).1 hm
    (by rw [hidx]; exact Int.natCast_nonneg i) hlt hcur
    (findWith test pattern file st).1.searchMatches.length
  have hL : (0 : Int) < ((findWith test pattern file st).1.searchMatches.length : Int) := by
    have := List.length_pos.mpr hm
    exact_mod_cast this
  have hmod : ((findWith test pattern file st).1.currentMatchIndex
        + ((findWith test pattern file st).1.searchMatches.length : Int))
        % ((findWith test pattern file st).1.searchMatches.length : Int)
      = (findWith test pattern file st).1.currentMatchIndex := by
    have h' := Int.add_mul_emod_self
      (a := (findWith test pattern file st).1.currentMatchIndex)
      (b := 1)
      (c := ((findWith test pattern file st).1.searchMatches.length : Int))
    rw [one_mul] at h'
    rw [h', hidx]
    refine Int.emod_eq_of_lt (Int.natCast_nonneg i) ?_
    rw [hidx] at hlt
    exact hlt
  refine ⟨?_, ?_⟩
  · rw [e2, hmod]
  · rw [e3, hmod, ← hcur]

/-- Witness for C7 at a concrete input: two matches for `"foo"` in a
three-line file; two `next_match` calls return to the landed match. -/
theorem next_match_cycles_back_witness :
    ((fun s => (nextMatch ["foo", "b", "foo"] s).1)^[
        (findWith (literalTest "foo") "foo" ["foo", "b", "foo"] (freshState "w7")).1.searchMatches.length]
      (findWith (literalTest "foo") "foo" ["foo", "b", "foo"] (freshState "w7")).1).currentMatchIndex
      = (findWith (literalTest "foo") "foo" ["foo", "b", "foo"] (freshState "w7")).1.currentMatchIndex :=
  (next_match_cycles_back (literalTest "foo") "foo" ["foo", "b", "foo"]
    (freshState "w7") _ _ rfl (by decide)).1

/-- C9: a navigation command invoked with path `p` leaves the navigator
state stored for every other path `q` unchanged — there is no cross-file
interaction through the path-keyed state table (for any regex oracle, file
system, table and command, including the failure paths). -/
theorem commands_leave_other_paths_unchanged (regex : RegexCompile) (fs : FileSystem)
    (tbl : NavTable) (cmd : Command) (q : String) (hq : q ≠ cmd.filename) :
    (handleCall regex fs tbl cmd).1 q = tbl q := by
  cases cmd with
  | goToLineCmd f line sh =>
    simp only [Command.filename] at hq
    simp only [handleCall, Command.filename]
    rcases hfs : fs f with _ | file
    · rfl
    · simp [tblSet, hq]
  | findCmd f pattern isRegex =>
    simp only [Command.filename] at hq
    simp only [handleCall, Command.filename]
    rcases hfs : fs f with _ | file
    · rfl
    · rcases hre : (if isRegex then regex pattern else some (literalTest pattern)) with _ | t
      · simp [hre, tblSet, hq]
      · simp [hre, tblSet, hq]
  | nextMatchCmd f =>
    simp only [Command.filename] at hq
    simp only [handleCall, Command.filename]
    rcases hfs : fs f with _ | file
    · rfl
    · simp [tblSet, hq]
  | prevMatchCmd f =>
    simp only [Command.filename] at hq
    simp only [handleCall, Command.filename]
    rcases hfs : fs f with _ | file
    · rfl
    · simp [tblSet, hq]
  | pageUpCmd f =>
    simp only [Command.filename] at hq
    simp only [handleCall, Command.filename]
    rcases hfs : fs f with _ | file
    · rfl
    · simp [tblSet, hq]
  | pageDownCmd f =>
    simp only [Command.filename] at hq
    simp only [handleCall, Command.filename]
    rcases hfs : fs f with _ | file
    · rfl
    · simp [tblSet, hq]

/-- Witness for C9 at a concrete input: `page_up` on path `"a"` does not
create or change an entry for path `"b"`. -/
theorem commands_leave_other_paths_unchanged_witness :
    (handleCall (fun _ => none) (fun _ => some ["x"]) (fun _ => none)
      (.pageUpCmd "a")).1 "b" = none :=
  commands_leave_other_paths_unchanged (fun _ => none) (fun _ => some ["x"])
    (fun _ => none) (.pageUpCmd "a") "b" (by decide)

end BmNavigate
